/-
Verification of the Code-Model Extraction & Pipeline-Classification Engine
of the AST-with-Roaming-Rag repository.

Shallow embedding of the extraction/classification core:
  - src/unnamed/part_001            SparkParser (pipeline classifier) and
                                    JavaFileParser (structural extractor),
  - src/java-parser/src/main/java/com/astanalyzer/Main.java
                                    the per-file batch loop,
  - src/frontend/src/components/data-flow-diagram.tsx
                                    processDataFlow (flow-edge resolution).

Java syntax trees (the output of the external JavaParser library, the "AST
Adapter" of the spec) are embedded as inductive types below; every function
is translated from the corresponding source method and is executable.
-/
import Mathlib

/-! ## Java expression trees

The fragment of the JavaParser expression AST that the visitors of
SparkParser and JavaFileParser inspect: bare identifiers (NameExpr),
literals, field accesses and method-call expressions (MethodCallExpr with
optional scope, a name, and an argument list). -/

/-- A JavaParser expression node, as the visitors see it. -/
inductive JExpr where
  | nameE (s : String)
  | litE (s : String)
  | fieldE (scope : JExpr) (field : String)
  | callE (scope : Option JExpr) (callee : String) (args : List JExpr)

/-- One MethodCallExpr occurrence: its scope (receiver), simple name and
argument list, exactly what each visitor reads off the node. -/
structure SCall where
  scope : Option JExpr
  callee : String
  args : List JExpr

mutual

/-- All MethodCallExpr nodes in an expression subtree, the node itself
first, then its arguments, then its scope — the set a VoidVisitorAdapter
visits when it recurses with super.visit. -/
def JExpr.calls : JExpr → List SCall
  | .nameE _ => []
  | .litE _ => []
  | .fieldE s _ => s.calls
  | .callE sc nm as => ⟨sc, nm, as⟩ :: (callsList as ++ callsOpt sc)

def callsList : List JExpr → List SCall
  | [] => []
  | e :: es => e.calls ++ callsList es

def callsOpt : Option JExpr → List SCall
  | none => []
  | some e => e.calls

end

mutual

/-- The raw source text of an expression, as JavaParser's toString prints
it: identifiers and literals print themselves, a scope is joined with a
dot, arguments are comma-separated inside parentheses. -/
def JExpr.text : JExpr → String
  | .nameE s => s
  | .litE s => s
  | .fieldE sc f => sc.text ++ "." ++ f
  | .callE none nm as => nm ++ "(" ++ textArgs as ++ ")"
  | .callE (some sc) nm as => sc.text ++ "." ++ nm ++ "(" ++ textArgs as ++ ")"

def textArgs : List JExpr → String
  | [] => ""
  | [e] => e.text
  | e :: e2 :: es => e.text ++ ", " ++ textArgs (e2 :: es)

end

/-! ## Statements, members, types, compilation units

The JavaFileParser walks ClassOrInterfaceDeclarations, MethodDeclarations,
FieldDeclarations, VariableDeclarators and MethodCallExprs. Statements are
modelled as expression statements, local-variable declaration statements
(VariableDeclarationExpr with its VariableDeclarators) and nested blocks. -/

/-- A VariableDeclarator: name, declared type, optional initializer. -/
structure VarDecl where
  name : String
  type : String
  init : Option JExpr

/-- A statement of a method body. -/
inductive Stmt where
  | exprStmt (e : JExpr)
  | varStmt (decls : List VarDecl)
  | block (stmts : List Stmt)

/-- A method parameter: name and declared type. -/
structure Param where
  name : String
  type : String
deriving DecidableEq

/-- A MethodDeclaration; body is absent for abstract/interface signatures. -/
structure MethodDecl where
  name : String
  returnType : String
  isPublic : Bool
  isStatic : Bool
  params : List Param
  body : Option (List Stmt)

/-- One declarator of a FieldDeclaration. -/
structure FieldVar where
  name : String
  type : String
  init : Option JExpr

/-- A FieldDeclaration: shared modifiers, one or more declarators. -/
structure FieldDecl where
  isPublic : Bool
  isStatic : Bool
  vars : List FieldVar

/-- A ClassOrInterfaceDeclaration, with its directly nested member types
(the source of the nesting that cu.findAll flattens). -/
inductive TypeDecl where
  | mk (name : String) (isInterface : Bool)
       (extendedTypes implementedTypes : List String)
       (methods : List MethodDecl) (fields : List FieldDecl)
       (nested : List TypeDecl)

def TypeDecl.name : TypeDecl → String
  | .mk n _ _ _ _ _ _ => n

def TypeDecl.isInterface : TypeDecl → Bool
  | .mk _ i _ _ _ _ _ => i

def TypeDecl.extendedTypes : TypeDecl → List String
  | .mk _ _ e _ _ _ _ => e

def TypeDecl.implementedTypes : TypeDecl → List String
  | .mk _ _ _ i _ _ _ => i

def TypeDecl.methods : TypeDecl → List MethodDecl
  | .mk _ _ _ _ m _ _ => m

def TypeDecl.fields : TypeDecl → List FieldDecl
  | .mk _ _ _ _ _ f _ => f

def TypeDecl.nested : TypeDecl → List TypeDecl
  | .mk _ _ _ _ _ _ n => n

/-- A parsed CompilationUnit: package declaration, imports, top-level types. -/
structure CompilationUnit where
  packageName : Option String
  imports : List String
  types : List TypeDecl

/-! ### findAll-style traversals -/

/-- Calls in the initializers of a declarator list. -/
def varDeclsCalls (ds : List VarDecl) : List SCall :=
  ds.flatMap fun d =>
    match d.init with
    | none => []
    | some e => e.calls

mutual

/-- All MethodCallExpr nodes in a statement subtree (body.findAll). -/
def Stmt.calls : Stmt → List SCall
  | .exprStmt e => e.calls
  | .varStmt ds => varDeclsCalls ds
  | .block ss => stmtsCalls ss

def stmtsCalls : List Stmt → List SCall
  | [] => []
  | s :: ss => s.calls ++ stmtsCalls ss

end

mutual

/-- All VariableDeclarators in a statement subtree (body.findAll), nested
blocks included. -/
def Stmt.varDecls : Stmt → List VarDecl
  | .exprStmt _ => []
  | .varStmt ds => ds
  | .block ss => stmtsVarDecls ss

def stmtsVarDecls : List Stmt → List VarDecl
  | [] => []
  | s :: ss => s.varDecls ++ stmtsVarDecls ss

end

mutual

/-- The subtree of a type declaration as cu.findAll(ClassOrInterface­Declaration)
collects it: the node itself, then every nested type, depth first — the
flattening into one list of top-level and nested types. -/
def TypeDecl.subtreeTypes : TypeDecl → List TypeDecl
  | .mk n i e im ms fs nested => .mk n i e im ms fs nested :: typesSubtrees nested

def typesSubtrees : List TypeDecl → List TypeDecl
  | [] => []
  | t :: ts => t.subtreeTypes ++ typesSubtrees ts

end

mutual

/-- classDecl.findAll(MethodDeclaration): every method declaration in the
type's subtree, the methods of nested member types included. -/
def TypeDecl.allMethods : TypeDecl → List MethodDecl
  | .mk _ _ _ _ ms _ nested => ms ++ typesAllMethods nested

def typesAllMethods : List TypeDecl → List MethodDecl
  | [] => []
  | t :: ts => t.allMethods ++ typesAllMethods ts

end

/-- Calls in a method declaration (its body, when present). -/
def MethodDecl.calls (m : MethodDecl) : List SCall :=
  match m.body with
  | none => []
  | some b => stmtsCalls b

/-- Calls in the initializers of a field declaration. -/
def FieldDecl.calls (f : FieldDecl) : List SCall :=
  f.vars.flatMap fun v =>
    match v.init with
    | none => []
    | some e => e.calls

mutual

/-- Every MethodCallExpr anywhere under a type declaration: field
initializers, method bodies and nested types — what a visitor accepted on
the CompilationUnit reaches. -/
def TypeDecl.allCalls : TypeDecl → List SCall
  | .mk _ _ _ _ ms fs nested =>
      fs.flatMap FieldDecl.calls ++ ms.flatMap MethodDecl.calls ++ typesAllCalls nested

def typesAllCalls : List TypeDecl → List SCall
  | [] => []
  | t :: ts => t.allCalls ++ typesAllCalls ts

end

/-- Every MethodCallExpr in the file (the classifier scans the whole file,
independent of which method or type a call lives in). -/
def CompilationUnit.allCalls (cu : CompilationUnit) : List SCall :=
  typesAllCalls cu.types

mutual

/-- Every local VariableDeclarator anywhere under a type declaration (what
SparkUsageVisitor sees through VariableDeclarationExpr nodes). -/
def TypeDecl.allLocalVars : TypeDecl → List VarDecl
  | .mk _ _ _ _ ms _ nested =>
      (ms.flatMap fun m =>
        match m.body with
        | none => []
        | some b => stmtsVarDecls b) ++ typesAllLocalVars nested

def typesAllLocalVars : List TypeDecl → List VarDecl
  | [] => []
  | t :: ts => t.allLocalVars ++ typesAllLocalVars ts

end

/-- Every local VariableDeclarator in the file. -/
def CompilationUnit.allLocalVars (cu : CompilationUnit) : List VarDecl :=
  typesAllLocalVars cu.types

/-! ## SparkParser: the Pipeline Classifier

Translated from SparkParser in src/unnamed/part_001. The three Java
HashSets of operation names are modelled as lists with decidable
membership; HashSet.contains is membership. -/

def SPARK_SOURCES : List String :=
  ["read", "readStream", "readText", "csv", "json", "parquet", "orc", "jdbc"]

def SPARK_TRANSFORMS : List String :=
  ["select", "filter", "where", "groupBy", "agg", "join", "withColumn", "map",
   "flatMap", "reduce", "transform", "sort", "orderBy", "limit", "dropDuplicates",
   "union", "intersect", "subtract", "cache", "persist", "unpersist", "repartition",
   "coalesce", "sample", "rdd", "toDF", "createOrReplaceTempView", "window"]

def SPARK_SINKS : List String :=
  ["write", "writeStream", "save", "saveAsTable", "insertInto", "csv", "json", "parquet",
   "orc", "jdbc", "text", "format", "mode", "option", "options", "partitionBy", "bucketBy"]

/-- n.getScope().map(s -> s instanceof NameExpr ? (NameExpr) s : null)
.filter(Objects::nonNull): the receiver's simple name when the receiver is
a bare identifier, nothing otherwise. -/
def scopeName : Option JExpr → Option String
  | some (.nameE s) => some s
  | _ => none

/-- One record of DataSourceVisitor: type, the "argument" key (each
argument overwrites the previous one in the HashMap, so only the last
argument's text survives; absent when the call has no arguments), and the
"scope" key. -/
structure SourceRec where
  type : String
  argument : Option String
  scope : Option String
deriving DecidableEq

/-- One record of TransformationVisitor: type, the full ordered "arguments"
list, and the "dataframe" key. -/
structure TransformRec where
  type : String
  arguments : List String
  dataframe : Option String
deriving DecidableEq

/-- One record of DataSinkVisitor: type, the full ordered "arguments"
list, and the "dataframe" key. -/
structure SinkRec where
  type : String
  arguments : List String
  dataframe : Option String
deriving DecidableEq

/-- The record DataSourceVisitor.visit builds for one matching call. -/
def dataSourceRecord (c : SCall) : SourceRec :=
  { type := c.callee
    argument := (c.args.map JExpr.text).getLast?
    scope := scopeName c.scope }

/-- The record TransformationVisitor.visit builds for one matching call. -/
def transformationRecord (c : SCall) : TransformRec :=
  { type := c.callee
    arguments := c.args.map JExpr.text
    dataframe := scopeName c.scope }

/-- The record DataSinkVisitor.visit builds for one matching call. -/
def dataSinkRecord (c : SCall) : SinkRec :=
  { type := c.callee
    arguments := c.args.map JExpr.text
    dataframe := scopeName c.scope }

/-- DataSourceVisitor over the whole file: one record per visited call
whose name is in SPARK_SOURCES. -/
def getSources (cu : CompilationUnit) : List SourceRec :=
  cu.allCalls.filterMap fun c =>
    if c.callee ∈ SPARK_SOURCES then some (dataSourceRecord c) else none

/-- TransformationVisitor over the whole file. -/
def getTransformations (cu : CompilationUnit) : List TransformRec :=
  cu.allCalls.filterMap fun c =>
    if c.callee ∈ SPARK_TRANSFORMS then some (transformationRecord c) else none

/-- DataSinkVisitor over the whole file. -/
def getSinks (cu : CompilationUnit) : List SinkRec :=
  cu.allCalls.filterMap fun c =>
    if c.callee ∈ SPARK_SINKS then some (dataSinkRecord c) else none

/-- The sparkMetadata map of SparkParser.parseSparkFile: the three stage
lists on success, or an error entry when an exception was caught. -/
inductive SparkMeta where
  | ok (sources : List SourceRec) (transformations : List TransformRec)
       (sinks : List SinkRec)
  | err (msg : String)
deriving DecidableEq

/-- The successful body of parseSparkFile on a parsed tree. -/
def sparkClassify (cu : CompilationUnit) : SparkMeta :=
  .ok (getSources cu) (getTransformations cu) (getSinks cu)

/-- Substring test on strings (Java String.contains), by character list. -/
def strContainsSub (s sub : String) : Bool :=
  s.toList.tails.any fun t => sub.toList.isPrefixOf t

/-- Prefix test on strings (Java String.startsWith), by character list. -/
def strStartsWith (s pre : String) : Bool :=
  pre.toList.isPrefixOf s.toList

/-- The import test of SparkParser.isSparkFile. -/
def isSparkImport (s : String) : Bool :=
  strStartsWith s "org.apache.spark" || strContainsSub s "SparkSession" ||
  strContainsSub s "DataFrame" || strContainsSub s "Dataset"

/-- SparkUsageVisitor on one call: common Spark API names. -/
def isSparkApiCall (c : SCall) : Bool :=
  SPARK_SOURCES.contains c.callee || SPARK_TRANSFORMS.contains c.callee ||
  SPARK_SINKS.contains c.callee || c.callee == "builder" ||
  c.callee == "getOrCreate" || c.callee == "sparkContext"

/-- SparkUsageVisitor on one local variable declarator: Spark types. -/
def isSparkVarType (v : VarDecl) : Bool :=
  strContainsSub v.type "SparkSession" || strContainsSub v.type "DataFrame" ||
  strContainsSub v.type "Dataset" || strContainsSub v.type "RDD"

/-- SparkParser.isSparkFile on a parsed tree: a Spark import, or Spark API
usage found by SparkUsageVisitor. -/
def isSparkCU (cu : CompilationUnit) : Bool :=
  cu.imports.any isSparkImport ||
  cu.allCalls.any isSparkApiCall ||
  cu.allLocalVars.any isSparkVarType

/-! ## JavaFileParser: the Structural Extractor

Translated from JavaFileParser.parseFile in src/unnamed/part_001. Each
HashMap the Java code builds becomes a record; a key the code only puts
conditionally becomes an Option field (none = key absent). -/

/-- One entry of a method's "variables" list. -/
structure VarInfo where
  name : String
  type : String
  initialValue : Option String
deriving DecidableEq

def mkVarInfo (v : VarDecl) : VarInfo :=
  { name := v.name
    type := v.type
    initialValue := v.init.map JExpr.text }

/-- The raw text of a method body, as body.toString would print the block. -/
def blockText (ss : List Stmt) : String :=
  "\x7b " ++ String.intercalate " " (ss.map fun _ => ";") ++ " \x7d"

/-- The methodInfo map built for one MethodDeclaration: body, methodCalls
and the "variables" list (field vars here) are only put when the
declaration has a body. -/
structure MethodInfo where
  name : String
  returnType : String
  isPublic : Bool
  isStatic : Bool
  parameters : List Param
  body : Option String
  methodCalls : Option (List String)
  vars : Option (List VarInfo)
deriving DecidableEq

def mkMethodInfo (m : MethodDecl) : MethodInfo :=
  { name := m.name
    returnType := m.returnType
    isPublic := m.isPublic
    isStatic := m.isStatic
    parameters := m.params
    body := m.body.map blockText
    methodCalls := m.body.map fun b => (stmtsCalls b).map SCall.callee
    vars := m.body.map fun b => (stmtsVarDecls b).map mkVarInfo }

/-- One entry of a class's "fields" list (one per declarator). -/
structure FieldInfo where
  name : String
  type : String
  isPublic : Bool
  isStatic : Bool
  initialValue : Option String
deriving DecidableEq

def fieldInfosOf (f : FieldDecl) : List FieldInfo :=
  f.vars.map fun v =>
    { name := v.name
      type := v.type
      isPublic := f.isPublic
      isStatic := f.isStatic
      initialValue := v.init.map JExpr.text }

/-- The classInfo map built for one collected ClassOrInterfaceDeclaration:
methods come from classDecl.findAll(MethodDeclaration) (the whole subtree),
fields from classDecl.getFields() (direct members only). -/
structure ClassInfo where
  name : String
  isInterface : Bool
  extendedTypes : List String
  implementedTypes : List String
  methods : List MethodInfo
  fields : List FieldInfo
deriving DecidableEq

def mkClassInfo (t : TypeDecl) : ClassInfo :=
  { name := t.name
    isInterface := t.isInterface
    extendedTypes := t.extendedTypes
    implementedTypes := t.implementedTypes
    methods := t.allMethods.map mkMethodInfo
    fields := t.fields.flatMap fieldInfosOf }

/-- cu.findAll(ClassOrInterfaceDeclaration).forEach(...): one classInfo per
collected type, nested types flattened into the same list. -/
def cuClasses (cu : CompilationUnit) : List ClassInfo :=
  (typesSubtrees cu.types).map mkClassInfo

/-- The fileMetadata map of a successful JavaFileParser.parseFile, plus the
sparkMetadata key Main.java adds for Spark files. -/
structure FileMetadata where
  file : String
  packageName : Option String
  imports : List String
  classes : List ClassInfo
  spark : Option SparkMeta
deriving DecidableEq

def mkFileMetadata (path : String) (cu : CompilationUnit) : FileMetadata :=
  { file := path
    packageName := cu.packageName
    imports := cu.imports
    classes := cuClasses cu
    spark := none }

/-! ## Main.java: File Processor and Batch Runner

The AST Adapter (the external JavaParser library) is a parameter: a
function from a file's contents to a parsed tree or a parse error. The
body of each try block after a successful parse is likewise a parameter
returning Except, because the Java code catches any exception thrown
there; the concrete, non-throwing bodies are javaExtractE and
sparkClassifyE below. -/

/-- One input file: its path and its (opaque) contents. -/
structure JavaFile (β : Type) where
  path : String
  contents : β

/-- The result map Main.java appends for one file: the success metadata,
or the error map (file path, error message, plus the sparkMetadata key
when Main.java put one into it). -/
inductive FileResult where
  | success (md : FileMetadata)
  | failure (path : String) (error : String) (spark : Option SparkMeta)
deriving DecidableEq

/-- The concrete try-block body of JavaFileParser.parseFile after the
parse: builds the metadata map and never fails. -/
def javaExtractE (path : String) (cu : CompilationUnit) : Except String FileMetadata :=
  .ok (mkFileMetadata path cu)

/-- The concrete try-block body of SparkParser.parseSparkFile after the
parse: runs the three visitors and never fails. -/
def sparkClassifyE (cu : CompilationUnit) : Except String SparkMeta :=
  .ok (sparkClassify cu)

/-- JavaFileParser.parseFile: parse, then extract; any exception becomes
the error map carrying the file path and the reason. The "file" key is put
unconditionally (first statement of the try block, and again in the catch)
and nothing later overwrites it, so the result's file is always the input
path, whatever the try-block body did. -/
def parseFileM {β : Type} (adapter : β → Except String CompilationUnit)
    (extract : String → CompilationUnit → Except String FileMetadata)
    (f : JavaFile β) : FileResult :=
  match adapter f.contents with
  | .error e => .failure f.path e none
  | .ok cu =>
    match extract f.path cu with
    | .error e => .failure f.path e none
    | .ok md => .success { md with file := f.path }

/-- SparkParser.isSparkFile: false when the parse fails (the catch returns
false), otherwise the Spark test on the tree. -/
def isSparkFileM {β : Type} (adapter : β → Except String CompilationUnit)
    (f : JavaFile β) : Bool :=
  match adapter f.contents with
  | .error _ => false
  | .ok cu => isSparkCU cu

/-- SparkParser.parseSparkFile: the stage lists, or the error map when the
parse or the classification throws. -/
def parseSparkFileM {β : Type} (adapter : β → Except String CompilationUnit)
    (classify : CompilationUnit → Except String SparkMeta)
    (f : JavaFile β) : SparkMeta :=
  match adapter f.contents with
  | .error e => .err e
  | .ok cu =>
    match classify cu with
    | .error e => .err e
    | .ok m => m

/-- fileMetadata.put("sparkMetadata", sparkMetadata): the key is put into
whichever map parseFile returned, the error map included. -/
def attachSpark : FileResult → SparkMeta → FileResult
  | .success md, sm => .success { md with spark := some sm }
  | .failure p e _, sm => .failure p e (some sm)

/-- The body of Main.java's per-file loop: parseFile, then the Spark pass
when isSparkFile holds. -/
def processOne {β : Type} (adapter : β → Except String CompilationUnit)
    (extract : String → CompilationUnit → Except String FileMetadata)
    (classify : CompilationUnit → Except String SparkMeta)
    (f : JavaFile β) : FileResult :=
  let md := parseFileM adapter extract f
  if isSparkFileM adapter f then attachSpark md (parseSparkFileM adapter classify f)
  else md

/-- Main.java's loop over filesToParse: one result appended per file, in
input order. -/
def runBatch {β : Type} (adapter : β → Except String CompilationUnit)
    (extract : String → CompilationUnit → Except String FileMetadata)
    (classify : CompilationUnit → Except String SparkMeta)
    (files : List (JavaFile β)) : List FileResult :=
  files.map (processOne adapter extract classify)

/-- The "file" key every result map carries. -/
def FileResult.path : FileResult → String
  | .success md => md.file
  | .failure p _ _ => p

/-- The classes a result entry contributes (an error map has none). -/
def FileResult.classes : FileResult → List ClassInfo
  | .success md => md.classes
  | .failure _ _ _ => []

/-- The sparkMetadata a result entry carries, if any. -/
def FileResult.sparkMeta : FileResult → Option SparkMeta
  | .success md => md.spark
  | .failure _ _ sp => sp

/-- Whether a result entry is the error map (a FileExtractionError). -/
def FileResult.isFailure : FileResult → Bool
  | .success _ => false
  | .failure _ _ _ => true

/-- How many pipeline-stage records a sparkMetadata map holds. -/
def SparkMeta.stageCount : SparkMeta → Nat
  | .ok s t k => s.length + t.length + k.length
  | .err _ => 0

/-- How many pipeline-stage records a result entry contributes. -/
def FileResult.stageCount (r : FileResult) : Nat :=
  match r.sparkMeta with
  | some m => m.stageCount
  | none => 0

/-! ## data-flow-diagram.tsx: flow-edge resolution

processDataFlow reads the rows that the persistence layer stored for the
parser's source/transformation/sink records (db getDataFlow) and joins
them on variable_name/dataframe_name. The React node ids
source-$id / transformation-$id / sink-$id are modelled by the tagged
NodeRef type. A JavaScript truthiness test `if (x)` on a nullable string
column is: the value is present and not the empty string. -/

/-- A spark_sources row as getDataFlow returns it. -/
structure SourceRow where
  id : Nat
  type : String
  arguments : Option String
  variable_name : Option String
deriving DecidableEq

/-- A spark_transformations row. -/
structure TransformationRow where
  id : Nat
  type : String
  arguments : Option String
  dataframe_name : Option String
deriving DecidableEq

/-- A spark_sinks row. -/
structure SinkRow where
  id : Nat
  type : String
  arguments : Option String
  dataframe_name : Option String
deriving DecidableEq

/-- The DataFlow payload of the backend's getDataFlow. -/
structure DataFlow where
  sources : List SourceRow
  transformations : List TransformationRow
  sinks : List SinkRow

/-- A React Flow node id: source-$id, transformation-$id or sink-$id. -/
inductive NodeRef where
  | source (id : Nat)
  | transformation (id : Nat)
  | sink (id : Nat)
deriving DecidableEq

/-- One edge pushed by processDataFlow, keeping its source and target ids. -/
structure FlowEdge where
  source : NodeRef
  target : NodeRef
deriving DecidableEq

/-- The edges pushed inside the data.sources.forEach loop: for each source
with a truthy variable_name, one edge to every transformation whose
dataframe_name equals it. -/
def sourceEdges (d : DataFlow) : List FlowEdge :=
  d.sources.flatMap fun s =>
    match s.variable_name with
    | none => []
    | some v =>
      if v = "" then []
      else
        d.transformations.filterMap fun t =>
          if t.dataframe_name = some v then
            some ⟨.source s.id, .transformation t.id⟩
          else none

/-- The edges pushed inside the data.transformations.forEach loop: for each
transformation with a truthy dataframe_name, one edge to every sink with
the same dataframe_name, then one edge to every other transformation
(nextTransformation.id !== transformation.id) with the same dataframe_name. -/
def transformationEdges (d : DataFlow) : List FlowEdge :=
  d.transformations.flatMap fun t =>
    match t.dataframe_name with
    | none => []
    | some v =>
      if v = "" then []
      else
        (d.sinks.filterMap fun k =>
          if k.dataframe_name = some v then
            some ⟨.transformation t.id, .sink k.id⟩
          else none) ++
        (d.transformations.filterMap fun t2 =>
          if t2.id ≠ t.id ∧ t2.dataframe_name = some v then
            some ⟨.transformation t.id, .transformation t2.id⟩
          else none)

/-- All edges processDataFlow returns, in push order (the sinks loop pushes
nodes only, never edges). -/
def processDataFlowEdges (d : DataFlow) : List FlowEdge :=
  sourceEdges d ++ transformationEdges d

/-! ## Concrete fixtures -/

/-- How many of the three vocabularies contain a given call name. -/
def vocabHits (s : String) : Nat :=
  (if s ∈ SPARK_SOURCES then 1 else 0) + (if s ∈ SPARK_TRANSFORMS then 1 else 0) +
    (if s ∈ SPARK_SINKS then 1 else 0)

/-- A call whose name sits in both the source and the sink vocabulary:
df.csv("p"). -/
def dualCall : SCall := ⟨some (.nameE "df"), "csv", [.litE "\"p\""]⟩

/-- A method running exactly the dual-vocabulary call. -/
def dualMethod : MethodDecl :=
  { name := "run", returnType := "void", isPublic := true, isStatic := false,
    params := [],
    body := some [.exprStmt (.callE (some (.nameE "df")) "csv" [.litE "\"p\""])] }

/-- A file whose only call is df.csv("p"). -/
def cuDual : CompilationUnit :=
  { packageName := none
    imports := []
    types := [.mk "Job" false [] [] [dualMethod] [] []] }

/-- A source-vocabulary call with two arguments: conn.jdbc(a, b). -/
def jdbcCall : SCall := ⟨some (.nameE "conn"), "jdbc", [.nameE "a", .nameE "b"]⟩

/-- An abstract method declaration (no body). -/
def abstractMethod : MethodDecl :=
  { name := "handle", returnType := "void", isPublic := true, isStatic := false,
    params := [], body := none }

/-- An inner type declaring one method. -/
def innerType : TypeDecl :=
  .mk "Inner" false [] []
    [{ name := "m", returnType := "int", isPublic := false, isStatic := false,
       params := [], body := some [] }] [] []

/-- An outer type with no own methods and one nested member type. -/
def outerType : TypeDecl := .mk "Outer" false [] [] [] [] [innerType]

/-- A file with a nested type declaration. -/
def cuNested : CompilationUnit :=
  { packageName := none, imports := [], types := [outerType] }

/-- A Spark file (a Spark import, one class, one method) used by the
failure-containment counterexamples. -/
def sparkCU : CompilationUnit :=
  { packageName := some "com.example"
    imports := ["org.apache.spark.sql.SparkSession"]
    types := [.mk "Job" false [] [] [dualMethod] [] []] }

/-- An adapter that parses every file to sparkCU. -/
def adapterSpark : Unit → Except String CompilationUnit := fun _ => .ok sparkCU

/-- A classifier body that throws. -/
def classifyBoom : CompilationUnit → Except String SparkMeta := fun _ => .error "boom"

/-- The one input file used by the concrete batch fixtures. -/
def fileA : JavaFile Unit := ⟨"A.java", ()⟩

/-- The three-stage example of the spec: a source, a transformation and a
sink row all bound to "df". -/
def exThreeStage : DataFlow :=
  { sources := [⟨1, "csv", none, some "df"⟩]
    transformations := [⟨2, "filter", none, some "df"⟩]
    sinks := [⟨3, "write", none, some "df"⟩] }

/-- A source row and a sink row sharing binding "df", with no
transformation rows at all. -/
def exSourceSinkOnly : DataFlow :=
  { sources := [⟨1, "csv", none, some "df"⟩]
    transformations := []
    sinks := [⟨2, "write", none, some "df"⟩] }

/-! ## Claims as stated (predicates for the refuted claims) -/

/-- C1 as stated, specialized to the (source, sink) pairs it promises "in
particular": every source and sink sharing a non-null binding identifier
yield a flow edge. -/
def flowEdgeClaimStated (d : DataFlow) : Prop :=
  ∀ s ∈ d.sources, ∀ k ∈ d.sinks,
    s.variable_name ≠ none → s.variable_name = k.dataframe_name →
    (⟨.source s.id, .sink k.id⟩ : FlowEdge) ∈ processDataFlowEdges d

/-- C4 as stated: every emitted stage record, whatever its tag, carries the
matched callee name and the ordered raw texts of all call arguments. For a
source record the recorded argument texts are its single optional
"argument" value. -/
def stageArgumentsClaim : Prop :=
  ∀ c : SCall,
    (dataSourceRecord c).type = c.callee ∧
    (dataSourceRecord c).argument.toList = c.args.map JExpr.text ∧
    (transformationRecord c).type = c.callee ∧
    (transformationRecord c).arguments = c.args.map JExpr.text ∧
    (dataSinkRecord c).type = c.callee ∧
    (dataSinkRecord c).arguments = c.args.map JExpr.text

/-- C5 as stated: no MethodInfo appears in the methods lists of two
distinct extracted class entries of one file. -/
def methodOwnershipClaim (cu : CompilationUnit) : Prop :=
  (cuClasses cu).Pairwise fun a b => ∀ m ∈ a.methods, m ∉ b.methods

/-- C6 as stated: when the parse succeeds and the Pipeline Classifier then
fails, the file's result is the error map (a FileExtractionError). -/
def classifierFailureClaim {β : Type} (adapter : β → Except String CompilationUnit)
    (extract : String → CompilationUnit → Except String FileMetadata)
    (classify : CompilationUnit → Except String SparkMeta)
    (f : JavaFile β) (cu : CompilationUnit) (msg : String) : Prop :=
  adapter f.contents = .ok cu → classify cu = .error msg →
  (processOne adapter extract classify f).isFailure = true

/-- C8 as stated: a bodyless method still gets present-but-empty
methodCalls and variables lists. -/
def emptyBodyClaim : Prop :=
  ∀ m : MethodDecl, m.body = none →
    (mkMethodInfo m).body = none ∧
    (mkMethodInfo m).methodCalls = some [] ∧
    (mkMethodInfo m).vars = some []

/-! ## General lemmas -/

/-- Membership in a filterMap whose function is a guarded some. -/
theorem mem_filterMap_ite {α β : Type} {l : List α} {p : α → Prop} [DecidablePred p]
    {g : α → β} {b : β} :
    b ∈ l.filterMap (fun a => if p a then some (g a) else none) ↔
      ∃ a ∈ l, p a ∧ g a = b := by
  rw [List.mem_filterMap]
  constructor
  · rintro ⟨a, ha, h⟩
    by_cases hp : p a
    · exact ⟨a, ha, hp, by simpa [hp] using h⟩
    · simp [hp] at h
  · rintro ⟨a, ha, hp, h⟩
    exact ⟨a, ha, by simp [hp, h]⟩

/-- attachSpark never changes the "file" key. -/
theorem attachSpark_path (r : FileResult) (sm : SparkMeta) :
    (attachSpark r sm).path = r.path := by
  cases r <;> rfl

/-- parseFileM's result carries the input path, for any try-block body. -/
theorem parseFileM_path {β : Type} (A : β → Except String CompilationUnit)
    (E : String → CompilationUnit → Except String FileMetadata) (f : JavaFile β) :
    (parseFileM A E f).path = f.path := by
  unfold parseFileM
  cases A f.contents with
  | error e => rfl
  | ok cu =>
    dsimp only
    cases E f.path cu with
    | error e => rfl
    | ok md => rfl

/-- Each per-file result of the batch loop carries that file's path. -/
@[simp] theorem processOne_path {β : Type} (A : β → Except String CompilationUnit)
    (E : String → CompilationUnit → Except String FileMetadata)
    (C : CompilationUnit → Except String SparkMeta) (f : JavaFile β) :
    (processOne A E C f).path = f.path := by
  unfold processOne
  cases hs : isSparkFileM A f
  · simpa using parseFileM_path A E f
  · simp only [if_true]
    rw [attachSpark_path]
    exact parseFileM_path A E f

/-- The edges of the data.sources.forEach loop, characterized. -/
theorem mem_sourceEdges {d : DataFlow} {e : FlowEdge} :
    e ∈ sourceEdges d ↔ ∃ s ∈ d.sources, ∃ t ∈ d.transformations, ∃ v : String,
      v ≠ "" ∧ s.variable_name = some v ∧ t.dataframe_name = some v ∧
      e = ⟨.source s.id, .transformation t.id⟩ := by
  unfold sourceEdges
  rw [List.mem_flatMap]
  constructor
  · rintro ⟨s, hs, he⟩
    refine ⟨s, hs, ?_⟩
    obtain ⟨sid, sty, sar, svn⟩ := s
    cases svn with
    | none => exact absurd he (List.not_mem_nil _)
    | some v =>
      dsimp only at he
      by_cases hv : v = ""
      · rw [if_pos hv] at he
        exact absurd he (List.not_mem_nil _)
      · rw [if_neg hv] at he
        obtain ⟨t, ht, hp, hg⟩ := mem_filterMap_ite.mp he
        exact ⟨t, ht, v, hv, rfl, hp, hg.symm⟩
  · rintro ⟨s, hs, t, ht, v, hv, hvn, hdn, rfl⟩
    refine ⟨s, hs, ?_⟩
    rw [hvn]
    dsimp only
    rw [if_neg hv]
    exact mem_filterMap_ite.mpr ⟨t, ht, hdn, rfl⟩

/-- The edges of the data.transformations.forEach loop, characterized. -/
theorem mem_transformationEdges {d : DataFlow} {e : FlowEdge} :
    e ∈ transformationEdges d ↔
      (∃ t ∈ d.transformations, ∃ k ∈ d.sinks, ∃ v : String,
        v ≠ "" ∧ t.dataframe_name = some v ∧ k.dataframe_name = some v ∧
        e = ⟨.transformation t.id, .sink k.id⟩) ∨
      (∃ t ∈ d.transformations, ∃ t2 ∈ d.transformations, ∃ v : String,
        v ≠ "" ∧ t.dataframe_name = some v ∧ t2.dataframe_name = some v ∧
        t2.id ≠ t.id ∧ e = ⟨.transformation t.id, .transformation t2.id⟩) := by
  unfold transformationEdges
  rw [List.mem_flatMap]
  constructor
  · rintro ⟨t, ht, he⟩
    obtain ⟨tid, tty, tar, tdn⟩ := t
    cases tdn with
    | none => exact absurd he (List.not_mem_nil _)
    | some v =>
      dsimp only at he
      by_cases hv : v = ""
      · rw [if_pos hv] at he
        exact absurd he (List.not_mem_nil _)
      · rw [if_neg hv] at he
        rcases List.mem_append.mp he with h | h
        · obtain ⟨k, hk, hp, hg⟩ := mem_filterMap_ite.mp h
          exact Or.inl ⟨⟨tid, tty, tar, some v⟩, ht, k, hk, v, hv, rfl, hp, hg.symm⟩
        · obtain ⟨t2, ht2, hp, hg⟩ := mem_filterMap_ite.mp h
          exact Or.inr ⟨⟨tid, tty, tar, some v⟩, ht, t2, ht2, v, hv, rfl, hp.2, hp.1, hg.symm⟩
  · rintro (⟨t, ht, k, hk, v, hv, htd, hkd, rfl⟩ | ⟨t, ht, t2, ht2, v, hv, htd, ht2d, hne, rfl⟩)
    · refine ⟨t, ht, ?_⟩
      rw [htd]
      dsimp only
      rw [if_neg hv]
      exact List.mem_append_left _ (mem_filterMap_ite.mpr ⟨k, hk, hkd, rfl⟩)
    · refine ⟨t, ht, ?_⟩
      rw [htd]
      dsimp only
      rw [if_neg hv]
      exact List.mem_append_right _ (mem_filterMap_ite.mpr ⟨t2, ht2, ⟨hne, ht2d⟩, rfl⟩)

/-- One classification pass: the three stage-list lengths against the
per-call vocabulary hits. -/
theorem stage_count_aux (l : List SCall) :
    (l.filterMap fun c =>
      if c.callee ∈ SPARK_SOURCES then some (dataSourceRecord c) else none).length +
    (l.filterMap fun c =>
      if c.callee ∈ SPARK_TRANSFORMS then some (transformationRecord c) else none).length +
    (l.filterMap fun c =>
      if c.callee ∈ SPARK_SINKS then some (dataSinkRecord c) else none).length =
    (l.map fun c => vocabHits c.callee).sum := by
  induction l with
  | nil => rfl
  | cons c l ih =>
    simp only [List.filterMap_cons, List.map_cons, List.sum_cons]
    have hv : vocabHits c.callee =
        (if c.callee ∈ SPARK_SOURCES then 1 else 0) +
          (if c.callee ∈ SPARK_TRANSFORMS then 1 else 0) +
          (if c.callee ∈ SPARK_SINKS then 1 else 0) := rfl
    rw [hv]
    by_cases h1 : c.callee ∈ SPARK_SOURCES <;>
      by_cases h2 : c.callee ∈ SPARK_TRANSFORMS <;>
        by_cases h3 : c.callee ∈ SPARK_SINKS <;>
          simp [h1, h2, h3] <;> omega

mutual

/-- A type collected from a subtree contributes all its findAll methods to
the root's findAll methods. -/
theorem subtree_methods_subset :
    ∀ (t u : TypeDecl), u ∈ t.subtreeTypes → ∀ m ∈ u.allMethods, m ∈ t.allMethods
  | .mk n i e im ms fs nested, u, hu, m, hm => by
    simp only [TypeDecl.subtreeTypes] at hu
    rcases List.mem_cons.mp hu with h | h
    · subst h
      exact hm
    · simp only [TypeDecl.allMethods]
      exact List.mem_append_right _ (subtrees_methods_subset nested u h m hm)

/-- List version of subtree_methods_subset. -/
theorem subtrees_methods_subset :
    ∀ (ts : List TypeDecl) (u : TypeDecl), u ∈ typesSubtrees ts →
      ∀ m ∈ u.allMethods, m ∈ typesAllMethods ts
  | [], u, hu, m, _ => by
    simp [typesSubtrees] at hu
  | t :: ts, u, hu, m, hm => by
    simp only [typesSubtrees] at hu
    rcases List.mem_append.mp hu with h | h
    · simp only [typesAllMethods]
      exact List.mem_append_left _ (subtree_methods_subset t u h m hm)
    · simp only [typesAllMethods]
      exact List.mem_append_right _ (subtrees_methods_subset ts u h m hm)

end

/-! ## The claims -/

/-- Claim C1, counterexample: a file holding a source row and a sink row
that share the non-null binding identifier "df", with no transformation
rows, yields no flow edge at all — the promised (source, sink) pair is not
in the result, so flow-edge resolution does not return every pair whose
tags are in {source, transformation} x {transformation, sink}. -/
theorem flow_edge_source_sink_pair_missing :
    ¬ flowEdgeClaimStated exSourceSinkOnly := by
  unfold flowEdgeClaimStated
  decide

/-- Claim C1, amended: flow-edge resolution returns exactly the pairs of
three families joined on a non-null, non-empty binding identifier —
(source, transformation), (transformation, sink) and (transformation,
other transformation with a different id). Direct (source, sink) pairs are
never produced. The three-stage df example yields exactly the
(source, transformation) and (transformation, sink) edges, and the
source-plus-sink-only file yields no edges. -/
theorem flow_edge_resolution_characterized :
    (∀ (d : DataFlow) (e : FlowEdge),
      e ∈ processDataFlowEdges d ↔
        (∃ s ∈ d.sources, ∃ t ∈ d.transformations, ∃ v : String,
          v ≠ "" ∧ s.variable_name = some v ∧ t.dataframe_name = some v ∧
          e = ⟨.source s.id, .transformation t.id⟩) ∨
        (∃ t ∈ d.transformations, ∃ k ∈ d.sinks, ∃ v : String,
          v ≠ "" ∧ t.dataframe_name = some v ∧ k.dataframe_name = some v ∧
          e = ⟨.transformation t.id, .sink k.id⟩) ∨
        (∃ t ∈ d.transformations, ∃ t2 ∈ d.transformations, ∃ v : String,
          v ≠ "" ∧ t.dataframe_name = some v ∧ t2.dataframe_name = some v ∧
          t2.id ≠ t.id ∧ e = ⟨.transformation t.id, .transformation t2.id⟩)) ∧
    processDataFlowEdges exThreeStage =
      [⟨.source 1, .transformation 2⟩, ⟨.transformation 2, .sink 3⟩] ∧
    processDataFlowEdges exSourceSinkOnly = [] := by
  refine ⟨?_, by decide, by decide⟩
  intro d e
  unfold processDataFlowEdges
  rw [List.mem_append, mem_sourceEdges, mem_transformationEdges]

/-- Claim C2: the Batch Runner returns exactly one entry per input path —
the result list has the input's length, every path occurs in the results
as often as among the inputs, a parse failure for a file yields for that
file precisely the error map with its path and reason (contributing no
classes and no pipeline stages), and the rest of the batch is processed
independently of it. -/
theorem batch_runner_one_entry_per_file :
    ∀ {β : Type} (adapter : β → Except String CompilationUnit)
      (extract : String → CompilationUnit → Except String FileMetadata)
      (classify : CompilationUnit → Except String SparkMeta)
      (files : List (JavaFile β)),
      (runBatch adapter extract classify files).length = files.length ∧
      (∀ p : String,
        (runBatch adapter extract classify files).countP (fun r => r.path == p) =
          files.countP (fun f => f.path == p)) ∧
      (∀ (f : JavaFile β) (e : String), adapter f.contents = .error e →
        processOne adapter extract classify f = .failure f.path e none ∧
        (FileResult.failure f.path e none).classes = [] ∧
        (FileResult.failure f.path e none).stageCount = 0) ∧
      (∀ (pre post : List (JavaFile β)) (f : JavaFile β),
        runBatch adapter extract classify (pre ++ f :: post) =
          runBatch adapter extract classify pre ++
            processOne adapter extract classify f ::
              runBatch adapter extract classify post) := by
  intro β A E C files
  refine ⟨List.length_map _ _, ?_, ?_, ?_⟩
  · intro p
    unfold runBatch
    rw [List.countP_map]
    refine List.countP_congr fun f _ => ?_
    simp [Function.comp]
  · intro f e h
    refine ⟨?_, rfl, rfl⟩
    unfold processOne parseFileM isSparkFileM
    rw [h]
    simp
  · intro pre post f
    unfold runBatch
    simp

/-- Claim C3: one call site emits exactly one stage record per vocabulary
containing its callee name — the three stage-list lengths sum to the
per-call vocabulary-hit count — and a name in both the source and sink
vocabularies (csv, json, parquet, orc, jdbc each hit exactly two
vocabularies) emits both a source-tagged and a sink-tagged record with
that operation name, shown concretely on the one-call file df.csv("p"). -/
theorem classifier_one_stage_per_vocabulary :
    ∀ cu : CompilationUnit,
      ((getSources cu).length + (getTransformations cu).length + (getSinks cu).length =
        (cu.allCalls.map fun c => vocabHits c.callee).sum) ∧
      (∀ c ∈ cu.allCalls, c.callee ∈ SPARK_SOURCES → c.callee ∈ SPARK_SINKS →
        dataSourceRecord c ∈ getSources cu ∧ dataSinkRecord c ∈ getSinks cu ∧
        (dataSourceRecord c).type = c.callee ∧ (dataSinkRecord c).type = c.callee) ∧
      (∀ s ∈ (["csv", "json", "parquet", "orc", "jdbc"] : List String), vocabHits s = 2) ∧
      (getSources cuDual = [dataSourceRecord dualCall] ∧
        getTransformations cuDual = [] ∧
        getSinks cuDual = [dataSinkRecord dualCall]) := by
  intro cu
  refine ⟨?_, ?_, by decide, by decide⟩
  · unfold getSources getTransformations getSinks
    exact stage_count_aux cu.allCalls
  · intro c hc h1 h2
    refine ⟨?_, ?_, rfl, rfl⟩
    · unfold getSources
      exact List.mem_filterMap.mpr ⟨c, hc, by simp [h1]⟩
    · unfold getSinks
      exact List.mem_filterMap.mpr ⟨c, hc, by simp [h2]⟩

/-- Claim C4, counterexample: for the two-argument source call
conn.jdbc(a, b), the emitted source record keeps only the last argument
text "b", not the ordered list of both argument texts — the claim that
every stage records all n argument texts is false. -/
theorem stage_arguments_source_keeps_last_only : ¬ stageArgumentsClaim := by
  intro h
  exact absurd (h jdbcCall).2.1 (by decide)

/-- Claim C4, amended: every emitted stage's operation name is the matched
callee name; transformation and sink stages record the ordered raw texts
of all call arguments; a source stage records only the raw text of the
last argument (absent when there is none) under its single "argument"
key. -/
theorem stage_operation_and_arguments :
    ∀ cu : CompilationUnit,
      (∀ r ∈ getSources cu, ∃ c ∈ cu.allCalls, c.callee ∈ SPARK_SOURCES ∧
        r.type = c.callee ∧ r.argument = (c.args.map JExpr.text).getLast? ∧
        r.scope = scopeName c.scope) ∧
      (∀ r ∈ getTransformations cu, ∃ c ∈ cu.allCalls, c.callee ∈ SPARK_TRANSFORMS ∧
        r.type = c.callee ∧ r.arguments = c.args.map JExpr.text ∧
        r.dataframe = scopeName c.scope) ∧
      (∀ r ∈ getSinks cu, ∃ c ∈ cu.allCalls, c.callee ∈ SPARK_SINKS ∧
        r.type = c.callee ∧ r.arguments = c.args.map JExpr.text ∧
        r.dataframe = scopeName c.scope) := by
  intro cu
  refine ⟨?_, ?_, ?_⟩ <;> intro r hr
  · unfold getSources at hr
    obtain ⟨c, hc, hp, hg⟩ := mem_filterMap_ite.mp hr
    subst hg
    exact ⟨c, hc, hp, rfl, rfl, rfl⟩
  · unfold getTransformations at hr
    obtain ⟨c, hc, hp, hg⟩ := mem_filterMap_ite.mp hr
    subst hg
    exact ⟨c, hc, hp, rfl, rfl, rfl⟩
  · unfold getSinks at hr
    obtain ⟨c, hc, hp, hg⟩ := mem_filterMap_ite.mp hr
    subst hg
    exact ⟨c, hc, hp, rfl, rfl, rfl⟩

/-- Claim C5, counterexample: for a file with class Outer enclosing class
Inner with method m, the extracted class list has m's MethodInfo in the
methods lists of both entries — a method declaration of a nested type is
not owned by exactly one extracted TypeDeclaration. -/
theorem method_single_ownership_refuted : ¬ methodOwnershipClaim cuNested := by
  unfold methodOwnershipClaim
  decide

/-- Claim C5, amended: because classDecl.findAll(MethodDeclaration) scans
the whole subtree, every method of a nested type also appears in the
methods list of each enclosing collected type: if u is in t's collected
subtree, u's methods (declarations and extracted MethodInfos alike) are
all among t's. -/
theorem nested_type_methods_duplicated :
    ∀ (t u : TypeDecl), u ∈ t.subtreeTypes →
      (∀ m ∈ u.allMethods, m ∈ t.allMethods) ∧
      (∀ mi ∈ (mkClassInfo u).methods, mi ∈ (mkClassInfo t).methods) := by
  intro t u hu
  refine ⟨fun m hm => subtree_methods_subset t u hu m hm, fun mi hmi => ?_⟩
  rw [(rfl : (mkClassInfo u).methods = u.allMethods.map mkMethodInfo)] at hmi
  obtain ⟨m, hm, rfl⟩ := List.mem_map.mp hmi
  exact List.mem_map_of_mem _ (subtree_methods_subset t u hu m hm)

/-- Witness for the amended C5 at the concrete Outer/Inner file. -/
theorem nested_type_methods_duplicated_witness :
    (∀ m ∈ innerType.allMethods, m ∈ outerType.allMethods) ∧
    (∀ mi ∈ (mkClassInfo innerType).methods, mi ∈ (mkClassInfo outerType).methods) :=
  nested_type_methods_duplicated outerType innerType
    (show innerType ∈ ([outerType, innerType] : List TypeDecl) from
      List.mem_cons_of_mem _ (List.mem_cons_self _ _))

/-- Claim C6, counterexample: on a Spark file whose parse succeeds and
whose classifier body throws "boom", the file's result is the success map
retaining all structural data, with the error recorded only inside the
sparkMetadata section — not a FileExtractionError. -/
theorem classifier_failure_recorded_in_band :
    ¬ classifierFailureClaim adapterSpark javaExtractE classifyBoom fileA sparkCU "boom" ∧
    processOne adapterSpark javaExtractE classifyBoom fileA =
      .success { mkFileMetadata "A.java" sparkCU with spark := some (.err "boom") } ∧
    (mkFileMetadata "A.java" sparkCU).classes ≠ [] := by
  refine ⟨?_, by decide, by decide⟩
  intro h
  exact absurd (h rfl rfl) (by decide)

/-- Claim C6, amended: after a successful parse, a failure inside the
structural extraction is captured as the error map for the file (with the
Spark section attached when the file is a Spark file), while a failure
inside the pipeline classification of a Spark file leaves the success
entry intact and records the error only inside its sparkMetadata; in both
cases the exception is converted to a value for that one file. -/
theorem extractor_classifier_failure_containment :
    ∀ {β : Type} (adapter : β → Except String CompilationUnit)
      (extract : String → CompilationUnit → Except String FileMetadata)
      (classify : CompilationUnit → Except String SparkMeta)
      (f : JavaFile β) (cu : CompilationUnit),
      adapter f.contents = .ok cu →
      (∀ e, extract f.path cu = .error e →
        processOne adapter extract classify f =
          if isSparkCU cu then .failure f.path e (some (parseSparkFileM adapter classify f))
          else .failure f.path e none) ∧
      (∀ md msg, extract f.path cu = .ok md → classify cu = .error msg →
        isSparkCU cu = true →
        processOne adapter extract classify f =
          .success { md with file := f.path, spark := some (.err msg) }) := by
  intro β A E C f cu hA
  constructor
  · intro e hE
    unfold processOne parseFileM isSparkFileM
    rw [hA]
    dsimp only
    rw [hE]
    by_cases h : isSparkCU cu <;> simp [h, attachSpark]
  · intro md msg hE hC hS
    unfold processOne parseFileM isSparkFileM parseSparkFileM
    rw [hA]
    dsimp only
    rw [hE, hC, hS]
    simp [attachSpark]

/-- Witness for the amended C6: the concrete Spark file with the throwing
classifier ends as a success entry with the in-band Spark error. -/
theorem extractor_classifier_failure_containment_witness :
    processOne adapterSpark javaExtractE classifyBoom fileA =
      .success { mkFileMetadata "A.java" sparkCU with
                   file := fileA.path, spark := some (.err "boom") } :=
  (extractor_classifier_failure_containment adapterSpark javaExtractE classifyBoom
      fileA sparkCU rfl).2
    (mkFileMetadata "A.java" sparkCU) "boom" rfl rfl (by decide)

/-- Claim C7: every emitted stage's binding identifier is computed by
scopeName, which returns the receiver's simple name exactly when the
receiver is a bare identifier, and null when the receiver is absent, a
literal, a chained call, a field access, or any other non-identifier
expression. -/
theorem binding_identifier_bare_receiver :
    ∀ c : SCall,
      ((dataSourceRecord c).scope = scopeName c.scope ∧
       (transformationRecord c).dataframe = scopeName c.scope ∧
       (dataSinkRecord c).dataframe = scopeName c.scope) ∧
      (∀ s : String, scopeName c.scope = some s ↔ c.scope = some (.nameE s)) ∧
      (c.scope = none → scopeName c.scope = none) ∧
      (∀ e : JExpr, c.scope = some e → (∀ s : String, e ≠ .nameE s) →
        scopeName c.scope = none) := by
  intro c
  refine ⟨⟨rfl, rfl, rfl⟩, ?_, ?_, ?_⟩
  · intro s
    constructor
    · intro h
      cases hc : c.scope with
      | none => rw [hc] at h; exact absurd h (by simp [scopeName])
      | some e =>
        cases e with
        | nameE t =>
          rw [hc] at h
          simp only [scopeName, Option.some.injEq] at h
          rw [h]
        | litE t => rw [hc] at h; exact absurd h (by simp [scopeName])
        | fieldE a b => rw [hc] at h; exact absurd h (by simp [scopeName])
        | callE a b d => rw [hc] at h; exact absurd h (by simp [scopeName])
    · intro h
      rw [h]
      rfl
  · intro h
    rw [h]
    rfl
  · intro e he hne
    rw [he]
    cases e with
    | nameE s => exact absurd rfl (hne s)
    | litE s => rfl
    | fieldE a b => rfl
    | callE a b d => rfl

/-- Claim C8, counterexample: an abstract method (no body) yields a
MethodInfo with the methodCalls key absent, not a present-but-empty
list. -/
theorem bodyless_method_empty_lists_refuted : ¬ emptyBodyClaim := by
  intro h
  exact absurd (h abstractMethod rfl).2.1 (by decide)

/-- Claim C8, amended: a method with no body yields body, methodCalls and
variables all absent (hence zero CallReference and LocalVariable
children); a method with a body records exactly the body's calls and
declarators; the methods and fields lists of every extracted class entry
are always present, holding the subtree's methods and the direct fields. -/
theorem bodyless_method_keys_absent :
    (∀ m : MethodDecl, m.body = none →
      (mkMethodInfo m).body = none ∧ (mkMethodInfo m).methodCalls = none ∧
      (mkMethodInfo m).vars = none) ∧
    (∀ (m : MethodDecl) (b : List Stmt), m.body = some b →
      (mkMethodInfo m).methodCalls = some ((stmtsCalls b).map SCall.callee) ∧
      (mkMethodInfo m).vars = some ((stmtsVarDecls b).map mkVarInfo)) ∧
    (∀ t : TypeDecl,
      (mkClassInfo t).methods = t.allMethods.map mkMethodInfo ∧
      (mkClassInfo t).fields = t.fields.flatMap fieldInfosOf) := by
  refine ⟨?_, ?_, ?_⟩
  · intro m h
    simp [mkMethodInfo, h]
  · intro m b h
    simp [mkMethodInfo, h]
  · intro t
    exact ⟨rfl, rfl⟩

/-- Claim C9: two batch runs over the same file list with adapters,
extractors and classifiers that agree pointwise produce equal result
lists, entry for entry and field for field. -/
theorem batch_runner_deterministic :
    ∀ {β : Type} (a1 a2 : β → Except String CompilationUnit)
      (e1 e2 : String → CompilationUnit → Except String FileMetadata)
      (c1 c2 : CompilationUnit → Except String SparkMeta)
      (files : List (JavaFile β)),
      (∀ f ∈ files, a1 f.contents = a2 f.contents) →
      (∀ p cu, e1 p cu = e2 p cu) →
      (∀ cu, c1 cu = c2 cu) →
      runBatch a1 e1 c1 files = runBatch a2 e2 c2 files := by
  intro β a1 a2 e1 e2 c1 c2 files h1 h2 h3
  unfold runBatch
  refine List.map_congr_left fun f hf => ?_
  unfold processOne parseFileM isSparkFileM parseSparkFileM
  rw [h1 f hf]
  cases a2 f.contents with
  | error e => rfl
  | ok cu =>
    dsimp only
    rw [h2 f.path cu, h3 cu]

/-- Witness for C9 at a concrete one-file batch. -/
theorem batch_runner_deterministic_witness :
    runBatch adapterSpark javaExtractE sparkClassifyE [fileA] =
      runBatch adapterSpark javaExtractE sparkClassifyE [fileA] :=
  batch_runner_deterministic adapterSpark adapterSpark javaExtractE javaExtractE
    sparkClassifyE sparkClassifyE [fileA]
    (fun _ _ => rfl) (fun _ _ => rfl) (fun _ => rfl)

/-- Claim C10: the Batch Runner's output order equals its input order —
the i-th result entry is exactly the per-file result of the i-th input
file. -/
theorem batch_output_positional :
    ∀ {β : Type} (adapter : β → Except String CompilationUnit)
      (extract : String → CompilationUnit → Except String FileMetadata)
      (classify : CompilationUnit → Except String SparkMeta)
      (files : List (JavaFile β)) (i : Nat),
      (runBatch adapter extract classify files).length = files.length ∧
      (runBatch adapter extract classify files)[i]? =
        (files[i]?).map (processOne adapter extract classify) := by
  intro β A E C files i
  exact ⟨List.length_map _ _, List.getElem?_map _ _ _⟩
